import Mathlib

/-!
# ConfigManager — shallow embedding and verification

A shallow embedding of `ConfigManager.py` (class `ConfigManager`): the custom
JSON codec (`_preprocess` / `_custom_decoder` together with `json.dump` /
`json.load(..., object_hook=...)`), the attribute store with
`__getattr__` auto-vivification and `assign`, and `load_config` / `save_config`
modelled at the level of JSON trees (one `Json` value stands for the parsed
content of the config file; an absent file is `none`).

Python values in the scope of the program are modelled by `PyValue`; JSON
documents by `Json`.  Machine-level aspects that the code never inspects are
carried opaquely: a float is represented by its 64-bit pattern (the codec and
`json` round floats through unchanged), and a complex number by an opaque
payload (the code never looks inside one; `json.dump` rejects it).
-/

namespace ConfigManager

/-- Python exceptions that the modelled code can raise.  The source defines no
exception classes of its own (in particular there is no `CorruptConfigError`
and no `UnsupportedTypeError` anywhere in the repository); the exceptions that
can actually occur are the built-in ones below.  `binasciiError` stands for
`binascii.Error` raised by `base64.b64decode`. -/
inductive PyErr where
  | keyError (k : String)
  | typeError
  | attributeError
  | binasciiError
deriving DecidableEq, Repr

/-- A Python value, as far as the program can observe it.

* `vFloat bits` carries the IEEE-754 bit pattern of a `float` opaquely — the
  code only ever passes floats through unchanged.
* `vComplex payload` carries a `complex` opaquely — `complex` appears in the
  `attr_list` of `save_config` but the codec never inspects one.
* `vBytes` is a `bytes` object: a list of byte values (each `< 256` for values
  arising from real Python `bytes`).
* `vSet xs` is a `set` represented by the list of its elements in iteration
  order (Python does not specify that order; the model keeps a concrete one).
* `vDict kvs` is a `dict` with string keys in insertion order (JSON objects
  and the config store only ever carry string keys).
* `vOther cls` is any object whose type is outside the recognized type set
  (for example an instance of a user class), identified by its class name. -/
inductive PyValue where
  | vNone
  | vBool (b : Bool)
  | vInt (n : Int)
  | vFloat (bits : Nat)
  | vComplex (payload : Nat)
  | vStr (s : String)
  | vBytes (bs : List Nat)
  | vList (xs : List PyValue)
  | vTuple (xs : List PyValue)
  | vSet (xs : List PyValue)
  | vDict (kvs : List (String × PyValue))
  | vOther (cls : String)

open PyValue

/-- A JSON tree, the parsed form of a config file.  `jFloat` carries the bit
pattern of the float opaquely, as in `PyValue`. -/
inductive Json where
  | jNull
  | jBool (b : Bool)
  | jInt (n : Int)
  | jFloat (bits : Nat)
  | jStr (s : String)
  | jArr (xs : List Json)
  | jObj (kvs : List (String × Json))

open Json

/-! ## base64 (model of `base64.b64encode` / `base64.b64decode`)

`b64encode` is the standard RFC 4648 encoding with `=` padding.  `b64decode`
models CPython's non-validating `base64.b64decode`: characters outside the
alphabet (and `=`) are discarded, the remaining characters are consumed four
at a time, and a leftover group that is not a full quad — or a `=` in a data
position — raises `binascii.Error` ("incorrect padding"). -/

/-- The standard base64 alphabet. -/
def b64Alphabet : List Char :=
  "ABCDEFGHIJKLMNOPQRSTUVWXYZabcdefghijklmnopqrstuvwxyz0123456789+/".toList

/-- The alphabet character for a 6-bit value. -/
def b64Char (n : Nat) : Char := b64Alphabet.getD n '?'

/-- The 6-bit value of an alphabet character, `none` outside the alphabet. -/
def b64Val (c : Char) : Option Nat := b64Alphabet.findIdx? (· = c)

/-- Characters that `b64decode` keeps: the alphabet and the padding char. -/
def b64Keep (c : Char) : Bool := (b64Val c).isSome || c = '='

/-- Encode bytes three at a time into four base64 characters. -/
def b64EncodeChunks : List Nat → List Char
  | [] => []
  | [a] => [b64Char (a / 4), b64Char (a % 4 * 16), '=', '=']
  | [a, b] => [b64Char (a / 4), b64Char (a % 4 * 16 + b / 16), b64Char (b % 16 * 4), '=']
  | a :: b :: c :: rest =>
      b64Char (a / 4) :: b64Char (a % 4 * 16 + b / 16) ::
      b64Char (b % 16 * 4 + c / 64) :: b64Char (c % 64) :: b64EncodeChunks rest

/-- `base64.b64encode(..).decode("utf-8")`: the base64 text of a byte string. -/
def b64encode (bs : List Nat) : String := String.mk (b64EncodeChunks bs)

/-- Decode base64 characters four at a time; `none` models `binascii.Error`. -/
def b64DecodeQuads : List Char → Option (List Nat)
  | [] => some []
  | a :: b :: c :: d :: rest =>
      match b64Val a, b64Val b with
      | some va, some vb =>
        if c = '=' then
          if d = '=' then
            match b64DecodeQuads rest with
            | some tail => some ((va * 4 + vb / 16) :: tail)
            | none => none
          else none
        else
          match b64Val c with
          | some vc =>
            if d = '=' then
              match b64DecodeQuads rest with
              | some tail => some ((va * 4 + vb / 16) :: (vb % 16 * 16 + vc / 4) :: tail)
              | none => none
            else
              match b64Val d with
              | some vd =>
                match b64DecodeQuads rest with
                | some tail =>
                    some ((va * 4 + vb / 16) :: (vb % 16 * 16 + vc / 4) ::
                          (vc % 4 * 64 + vd) :: tail)
                | none => none
              | none => none
          | none => none
      | _, _ => none
  | _ => none

/-- `base64.b64decode` on a text: discard characters outside the alphabet,
then decode quads; `none` models a raised `binascii.Error`. -/
def b64decode (s : String) : Option (List Nat) :=
  b64DecodeQuads (s.toList.filter b64Keep)

/-! ## Python value operations used by the codec -/

mutual

/-- Structural equality of modelled Python values (the `==` the program relies
on for the values in scope).  It is finer than Python `==` on mixed numeric
kinds (Python equates `True == 1 == 1.0`); the program never compares across
kinds, and a finer equality only strengthens every equation proved below.
The `vSet` case compares representation lists pointwise; it is used only
inside `set(...)` construction, where it stands for element-level `==`. -/
def pyBeq : PyValue → PyValue → Bool
  | vNone, vNone => true
  | vBool a, vBool b => a == b
  | vInt a, vInt b => a == b
  | vFloat a, vFloat b => a == b
  | vComplex a, vComplex b => a == b
  | vStr a, vStr b => a == b
  | vBytes a, vBytes b => a == b
  | vList xs, vList ys => pyBeqList xs ys
  | vTuple xs, vTuple ys => pyBeqList xs ys
  | vSet xs, vSet ys => pyBeqList xs ys
  | vDict xs, vDict ys => pyBeqPairs xs ys
  | vOther a, vOther b => a == b
  | _, _ => false

/-- Pointwise `pyBeq` on lists. -/
def pyBeqList : List PyValue → List PyValue → Bool
  | [], [] => true
  | x :: xs, y :: ys => pyBeq x y && pyBeqList xs ys
  | _, _ => false

/-- Pointwise `pyBeq` on key-value pair lists. -/
def pyBeqPairs : List (String × PyValue) → List (String × PyValue) → Bool
  | [], [] => true
  | (k, v) :: xs, (l, w) :: ys => k == l && pyBeq v w && pyBeqPairs xs ys
  | _, _ => false

end

mutual

/-- Python hashability: `list`, `dict` and `set` values are unhashable; a
`tuple` is hashable when all its elements are; every other value in scope is
hashable. -/
def pyHashable : PyValue → Bool
  | vList _ => false
  | vDict _ => false
  | vSet _ => false
  | vTuple xs => pyHashableList xs
  | _ => true

/-- All elements hashable. -/
def pyHashableList : List PyValue → Bool
  | [] => true
  | x :: xs => pyHashable x && pyHashableList xs

end

/-- Membership test under `pyBeq`. -/
def pyMem (xs : List PyValue) (x : PyValue) : Bool :=
  xs.any fun y => pyBeq y x

/-- No two elements of the list are `pyBeq`-equal. -/
def pyNodupB : List PyValue → Bool
  | [] => true
  | x :: xs => !pyMem xs x && pyNodupB xs

/-- Remove duplicates, keeping one representative per `pyBeq`-class.  Python's
`set` iteration order is unspecified; this model keeps a concrete order as a
representation artifact (on duplicate-free input it is the identity, which is
the only case the program's encoder ever produces). -/
def pyDedup : List PyValue → List PyValue
  | [] => []
  | x :: xs => if pyMem xs x then pyDedup xs else x :: pyDedup xs

/-- `set(items)`: raises `TypeError` when some element is unhashable,
otherwise builds the set of the distinct elements. -/
def pySet (items : List PyValue) : Except PyErr PyValue :=
  if pyHashableList items then .ok (vSet (pyDedup items)) else .error .typeError

/-- Python dict lookup on the insertion-ordered pair list (`dct[k]` /
`k in dct`); a real `dict` has no duplicate keys, so taking the first match
is exact. -/
def dctGet : List (String × PyValue) → String → Option PyValue
  | [], _ => none
  | (k, v) :: rest, key => if k = key then some v else dctGet rest key

/-- Python `==` between a value and a string literal (`dct["__type__"] ==
"tuple"`): true exactly for the equal string. -/
def strEq : PyValue → String → Bool
  | vStr s, t => s = t
  | _, _ => false

/-- Python iteration (`for item in obj`): lists, tuples and sets yield their
elements, a string its one-character substrings, a bytes object its byte
values, a dict its keys; every other value in scope raises `TypeError`. -/
def pyIter : PyValue → Except PyErr (List PyValue)
  | vList xs => .ok xs
  | vTuple xs => .ok xs
  | vSet xs => .ok xs
  | vStr s => .ok (s.toList.map fun c => vStr (String.mk [c]))
  | vBytes bs => .ok (bs.map fun b => vInt (Int.ofNat b))
  | vDict kvs => .ok (kvs.map fun kv => vStr kv.1)
  | _ => .error .typeError

/-! ## Container depth

`_custom_decoder` recurses through dictionary lookups rather than through
subterms, so its termination measure is the container-nesting depth of the
value (containers add one level; scalars, strings and bytes are depth 0). -/

mutual

/-- Container-nesting depth of a value. -/
def pyDepth : PyValue → Nat
  | vList xs => 1 + pyDepthList xs
  | vTuple xs => 1 + pyDepthList xs
  | vSet xs => 1 + pyDepthList xs
  | vDict kvs => 1 + pyDepthPairs kvs
  | _ => 0

/-- Greatest depth of a list of values. -/
def pyDepthList : List PyValue → Nat
  | [] => 0
  | x :: xs => max (pyDepth x) (pyDepthList xs)

/-- Greatest depth of the values of a pair list. -/
def pyDepthPairs : List (String × PyValue) → Nat
  | [] => 0
  | (_, v) :: kvs => max (pyDepth v) (pyDepthPairs kvs)

end

theorem pyDepth_dctGet {kvs : List (String × PyValue)} {k : String} {v : PyValue}
    (h : dctGet kvs k = some v) : pyDepth v ≤ pyDepthPairs kvs := by
  induction kvs with
  | nil => simp [dctGet] at h
  | cons p rest ih =>
    obtain ⟨k', v'⟩ := p
    simp only [dctGet] at h
    split at h
    · cases h
      simp [pyDepthPairs]
    · exact le_trans (ih h) (by simp [pyDepthPairs])

theorem pyDepthList_le_of_forall_zero {l : List PyValue}
    (h : ∀ x ∈ l, pyDepth x = 0) : pyDepthList l = 0 := by
  induction l with
  | nil => rfl
  | cons x xs ih =>
    simp only [pyDepthList]
    rw [h x (by simp), ih (fun y hy => h y (by simp [hy]))]
    simp

theorem pyDepth_pyIter {v : PyValue} {xs : List PyValue}
    (h : pyIter v = .ok xs) : pyDepthList xs ≤ pyDepth v := by
  cases v with
  | vNone => simp [pyIter] at h
  | vBool b => simp [pyIter] at h
  | vInt n => simp [pyIter] at h
  | vFloat f => simp [pyIter] at h
  | vComplex p => simp [pyIter] at h
  | vOther c => simp [pyIter] at h
  | vList l =>
      simp only [pyIter, Except.ok.injEq] at h
      subst h
      simp only [pyDepth]
      omega
  | vTuple l =>
      simp only [pyIter, Except.ok.injEq] at h
      subst h
      simp only [pyDepth]
      omega
  | vSet l =>
      simp only [pyIter, Except.ok.injEq] at h
      subst h
      simp only [pyDepth]
      omega
  | vStr s =>
      simp only [pyIter, Except.ok.injEq] at h
      subst h
      have hz : pyDepthList (s.toList.map fun c => vStr (String.mk [c])) = 0 := by
        apply pyDepthList_le_of_forall_zero
        intro x hx
        obtain ⟨c, _, rfl⟩ := List.mem_map.mp hx
        rfl
      simp only [pyDepth]
      exact le_of_eq hz
  | vBytes bs =>
      simp only [pyIter, Except.ok.injEq] at h
      subst h
      have hz : pyDepthList (bs.map fun b => vInt (Int.ofNat b)) = 0 := by
        apply pyDepthList_le_of_forall_zero
        intro x hx
        obtain ⟨c, _, rfl⟩ := List.mem_map.mp hx
        rfl
      simp only [pyDepth]
      exact le_of_eq hz
  | vDict kvs =>
      simp only [pyIter, Except.ok.injEq] at h
      subst h
      have hz : pyDepthList (kvs.map fun kv => vStr kv.1) = 0 := by
        apply pyDepthList_le_of_forall_zero
        intro x hx
        obtain ⟨c, _, rfl⟩ := List.mem_map.mp hx
        rfl
      simp only [pyDepth]
      omega

/-- Lexicographic helper used by the termination proof of the decoder. -/
theorem lexOfLe {a₁ b₁ a₂ b₂ : Nat} (h₁ : a₁ ≤ a₂) (h₂ : b₁ < b₂) :
    Prod.Lex (· < ·) (· < ·) (a₁, b₁) (a₂, b₂) := by
  rcases Nat.lt_or_ge a₁ a₂ with h | h
  · exact Prod.Lex.left _ _ h
  · have heq : a₁ = a₂ := Nat.le_antisymm h₁ h
    subst heq
    exact Prod.Lex.right _ h₂

/-! ## Encoding: `ConfigManager._preprocess`

```python
def _preprocess(self, obj):
    if isinstance(obj, tuple):
        return {"__type__": "tuple", "items": [self._preprocess(item) for item in obj]}
    if isinstance(obj, set):
        return {"__type__": "set", "items": [self._preprocess(item) for item in obj]}
    if isinstance(obj, bytes):
        return {"__type__": "bytes", "data": base64.b64encode(obj).decode("utf-8")}
    if isinstance(obj, dict):
        return {key: self._preprocess(value) for key, value in obj.items()}
    if isinstance(obj, list):
        return [self._preprocess(item) for item in obj]
    return obj
```
-/

mutual

/-- `_preprocess`: rewrite tuples, sets and bytes into tagged dicts, recurse
through dicts and lists, and return every other value unchanged. -/
def preprocess : PyValue → PyValue
  | vTuple xs => vDict [("__type__", vStr "tuple"), ("items", vList (preprocessList xs))]
  | vSet xs => vDict [("__type__", vStr "set"), ("items", vList (preprocessList xs))]
  | vBytes bs => vDict [("__type__", vStr "bytes"), ("data", vStr (b64encode bs))]
  | vDict kvs => vDict (preprocessPairs kvs)
  | vList xs => vList (preprocessList xs)
  | vNone => vNone
  | vBool b => vBool b
  | vInt n => vInt n
  | vFloat f => vFloat f
  | vComplex p => vComplex p
  | vStr s => vStr s
  | vOther c => vOther c

/-- `[self._preprocess(item) for item in obj]` -/
def preprocessList : List PyValue → List PyValue
  | [] => []
  | x :: xs => preprocess x :: preprocessList xs

/-- `{key: self._preprocess(value) for key, value in obj.items()}` -/
def preprocessPairs : List (String × PyValue) → List (String × PyValue)
  | [] => []
  | (k, v) :: kvs => (k, preprocess v) :: preprocessPairs kvs

end

/-! ## Serialization: `json.dump`

`json.dump` (default encoder) serializes `None`, `bool`, `int`, `float`,
`str`, `list`, `tuple` (as a JSON array) and string-keyed `dict`; any other
value — in particular `set`, `bytes`, `complex` or an arbitrary object that
reached it unconverted — raises `TypeError`. -/

mutual

/-- `json.dump` at tree level: the JSON document written for a value, or the
`TypeError` it raises. -/
def dumpJson : PyValue → Except PyErr Json
  | vNone => .ok jNull
  | vBool b => .ok (jBool b)
  | vInt n => .ok (jInt n)
  | vFloat f => .ok (jFloat f)
  | vStr s => .ok (jStr s)
  | vList xs =>
      match dumpList xs with
      | .error e => .error e
      | .ok js => .ok (jArr js)
  | vTuple xs =>
      match dumpList xs with
      | .error e => .error e
      | .ok js => .ok (jArr js)
  | vDict kvs =>
      match dumpPairs kvs with
      | .error e => .error e
      | .ok jkvs => .ok (jObj jkvs)
  | vComplex _ => .error .typeError
  | vSet _ => .error .typeError
  | vBytes _ => .error .typeError
  | vOther _ => .error .typeError

/-- Serialize the elements of an array. -/
def dumpList : List PyValue → Except PyErr (List Json)
  | [] => .ok []
  | x :: xs =>
      match dumpJson x with
      | .error e => .error e
      | .ok j =>
        match dumpList xs with
        | .error e => .error e
        | .ok js => .ok (j :: js)

/-- Serialize the members of an object. -/
def dumpPairs : List (String × PyValue) → Except PyErr (List (String × Json))
  | [] => .ok []
  | (k, v) :: kvs =>
      match dumpJson v with
      | .error e => .error e
      | .ok j =>
        match dumpPairs kvs with
        | .error e => .error e
        | .ok jkvs => .ok ((k, j) :: jkvs)

end

/-! ## Decoding: `ConfigManager._custom_decoder`

```python
def _custom_decoder(self, dct):
    if "__type__" in dct:
        if dct["__type__"] == "tuple":
            return tuple(self._custom_decoder(item) if isinstance(item, dict) else item
                         for item in dct["items"])
        if dct["__type__"] == "set":
            return set(self._custom_decoder(item) if isinstance(item, dict) else item
                       for item in dct["items"])
        if dct["__type__"] == "bytes":
            return base64.b64decode(dct["data"].encode("utf-8"))
    # Process nested dictionaries
    return {key: self._custom_decoder(value) if isinstance(value, dict) else value
            for key, value in dct.items()}
```

`customDecoder` takes any value and acts as the identity on non-dicts, which
makes the guarded call `self._custom_decoder(item) if isinstance(item, dict)
else item` simply `customDecoder item`.  Note that an unrecognized
`"__type__"` value falls through to the dictionary comprehension — the
function raises nothing in that case — and that the only exceptions it can
raise are `KeyError` (a tagged dict without its payload field),
`TypeError` (a non-iterable `items` payload or an unhashable set element),
`AttributeError` (a non-string `data` payload, which has no `.encode`) and
`binascii.Error` (from `base64.b64decode`). -/

mutual

/-- `_custom_decoder`, extended by the identity on non-dict values (the
`isinstance(item, dict)` guard at every call site). -/
def customDecoder : PyValue → Except PyErr PyValue
  | vDict kvs =>
    match dctGet kvs "__type__" with
    | some tv =>
      if strEq tv "tuple" then
        match hItems : dctGet kvs "items" with
        | none => .error (.keyError "items")
        | some itemsVal =>
          match hIter : pyIter itemsVal with
          | .error e => .error e
          | .ok items =>
            match decodeItems items with
            | .error e => .error e
            | .ok dec => .ok (vTuple dec)
      else if strEq tv "set" then
        match hItems : dctGet kvs "items" with
        | none => .error (.keyError "items")
        | some itemsVal =>
          match hIter : pyIter itemsVal with
          | .error e => .error e
          | .ok items =>
            match decodeItems items with
            | .error e => .error e
            | .ok dec => pySet dec
      else if strEq tv "bytes" then
        match dctGet kvs "data" with
        | none => .error (.keyError "data")
        | some (vStr s) =>
          match b64decode s with
          | some bs => .ok (vBytes bs)
          | none => .error .binasciiError
        | some _ => .error .attributeError
      else
        match decodePairs kvs with
        | .error e => .error e
        | .ok dec => .ok (vDict dec)
    | none =>
      match decodePairs kvs with
      | .error e => .error e
      | .ok dec => .ok (vDict dec)
  | vNone => .ok vNone
  | vBool b => .ok (vBool b)
  | vInt n => .ok (vInt n)
  | vFloat f => .ok (vFloat f)
  | vComplex p => .ok (vComplex p)
  | vStr s => .ok (vStr s)
  | vBytes bs => .ok (vBytes bs)
  | vList xs => .ok (vList xs)
  | vTuple xs => .ok (vTuple xs)
  | vSet xs => .ok (vSet xs)
  | vOther c => .ok (vOther c)
termination_by v => (pyDepth v, sizeOf v)
decreasing_by
  all_goals
    first
    | exact Prod.Lex.left _ _ (by
        have h1 := pyDepth_pyIter hIter
        have h2 := pyDepth_dctGet hItems
        simp only [pyDepth]
        omega)
    | exact Prod.Lex.left _ _ (by simp only [pyDepth]; omega)

/-- `self._custom_decoder(item) if isinstance(item, dict) else item` over the
items of a tagged tuple or set. -/
def decodeItems : List PyValue → Except PyErr (List PyValue)
  | [] => .ok []
  | x :: xs =>
      match customDecoder x with
      | .error e => .error e
      | .ok y =>
        match decodeItems xs with
        | .error e => .error e
        | .ok ys => .ok (y :: ys)
termination_by xs => (pyDepthList xs, sizeOf xs)
decreasing_by
  all_goals exact lexOfLe (by simp only [pyDepthList]; omega) (by first | (simp; omega) | simp | omega)

/-- The dictionary comprehension over `dct.items()`. -/
def decodePairs : List (String × PyValue) → Except PyErr (List (String × PyValue))
  | [] => .ok []
  | (k, v) :: kvs =>
      match customDecoder v with
      | .error e => .error e
      | .ok w =>
        match decodePairs kvs with
        | .error e => .error e
        | .ok ws => .ok ((k, w) :: ws)
termination_by kvs => (pyDepthPairs kvs, sizeOf kvs)
decreasing_by
  all_goals exact lexOfLe (by simp only [pyDepthPairs]; omega) (by first | (simp; omega) | simp | omega)

end

/-! ## Parsing: `json.load(file, object_hook=self._custom_decoder)`

The `json` parser builds the value bottom-up and calls the `object_hook` on
every object — innermost objects first, wherever they are nested (inside
arrays included).  `decodeJson` is that traversal: arrays and scalars are
taken structurally, and each object, after its member values have been
decoded, is passed through `_custom_decoder`. -/

mutual

/-- `json.load` with `object_hook=_custom_decoder`, at tree level. -/
def decodeJson : Json → Except PyErr PyValue
  | jNull => .ok vNone
  | jBool b => .ok (vBool b)
  | jInt n => .ok (vInt n)
  | jFloat f => .ok (vFloat f)
  | jStr s => .ok (vStr s)
  | jArr xs =>
      match decodeJsonList xs with
      | .error e => .error e
      | .ok vs => .ok (vList vs)
  | jObj kvs =>
      match decodeJsonPairs kvs with
      | .error e => .error e
      | .ok ps => customDecoder (vDict ps)

/-- Parse the elements of an array. -/
def decodeJsonList : List Json → Except PyErr (List PyValue)
  | [] => .ok []
  | x :: xs =>
      match decodeJson x with
      | .error e => .error e
      | .ok v =>
        match decodeJsonList xs with
        | .error e => .error e
        | .ok vs => .ok (v :: vs)

/-- Parse the members of an object (the hook then runs on the result). -/
def decodeJsonPairs : List (String × Json) → Except PyErr (List (String × PyValue))
  | [] => .ok []
  | (k, j) :: kvs =>
      match decodeJson j with
      | .error e => .error e
      | .ok v =>
        match decodeJsonPairs kvs with
        | .error e => .error e
        | .ok ps => .ok ((k, v) :: ps)

end

/-- `Decode(Encode(v))` at the level of the persistence pipeline:
`_preprocess`, then `json.dump`, then `json.load` with the custom hook. -/
def roundTrip (v : PyValue) : Except PyErr PyValue :=
  match dumpJson (preprocess v) with
  | .error e => .error e
  | .ok j => decodeJson j

/-! ## The attribute store

An instance's data attributes are its `__dict__`: a list of name/value pairs
in insertion order.  `__init__` stores `_file_path` and `_comment` before
`load_config` runs, so a fresh instance's store is
`[("_file_path", …), ("_comment", …)]`. -/

/-- The instance attribute dictionary. -/
abbrev Store := List (String × PyValue)

/-- `setattr(self, name, value)`: overwrite in place or append. -/
def setattrS : Store → String → PyValue → Store
  | [], n, v => [(n, v)]
  | (k, w) :: rest, n, v =>
      if k = n then (k, v) :: rest else (k, w) :: setattrS rest n v

/-- Plain attribute lookup (`super().__getattribute__`), `none` when the
lookup would raise `AttributeError`. -/
def getattrS (store : Store) (n : String) : Option PyValue := dctGet store n

/-- `ConfigManager.__getattr__`: called when normal lookup fails; it stores
`None` under the name and returns `None`.  The composite below is what
`getattr(self, n)` does for a data attribute: return the stored value, or
auto-vivify.  It never raises. -/
def getattrAuto (store : Store) (n : String) : PyValue × Store :=
  match getattrS store n with
  | some v => (v, store)
  | none => (vNone, setattrS store n vNone)

/-- `ConfigManager.assign(attr_name, def_val)`:

```python
current_val = getattr(self, attr_name)
if current_val is None:
    setattr(self, attr_name, def_val)
    current_val = def_val
return current_val
```
-/
def assign (store : Store) (n : String) (d : PyValue) : PyValue × Store :=
  let res := getattrAuto store n
  match res.1 with
  | vNone => (d, setattrS res.2 n d)
  | v => (v, res.2)

/-! ## `load_config` and `save_config` -/

/-- A config file at tree level: `none` when no file exists at the path,
otherwise the parsed JSON document. -/
abbrev ConfigFile := Option Json

/-- The decoded top-level mapping of a config file: `json.load` with the
hook, then `.items()` — which raises `AttributeError` when the decoded
root is not a dict. -/
def decodeTop (j : Json) : Except PyErr Store :=
  match decodeJson j with
  | .error e => .error e
  | .ok (vDict kvs) => .ok kvs
  | .ok _ => .error .attributeError

/-- `load_config`:

```python
try:
    with open(self._file_path, 'r', encoding="utf8") as file:
        config_data = json.load(file, object_hook=self._custom_decoder)
        for key, value in config_data.items():
            setattr(self, key, value)
except FileNotFoundError:
    print("Config file not found. Creating a new one.")
```

Only `FileNotFoundError` is caught (the absent-file case, recovered by
leaving the store as it is); any decoding exception propagates, and it is
raised by `json.load` before the `setattr` loop runs, so on failure the
store is returned unchanged. -/
def loadConfig (file : ConfigFile) (store : Store) : Store × Except PyErr Unit :=
  match file with
  | none => (store, .ok ())
  | some j =>
    match decodeTop j with
    | .error e => (store, .error e)
    | .ok kvs => (kvs.foldl (fun s kv => setattrS s kv.1 kv.2) store, .ok ())

/-- Lexicographic comparison of character lists by code point — the string
order Python's `sorted()` uses. -/
def charListLt : List Char → List Char → Bool
  | [], [] => false
  | [], _ :: _ => true
  | _ :: _, [] => false
  | a :: as, b :: bs =>
      if a.toNat < b.toNat then true
      else if b.toNat < a.toNat then false
      else charListLt as bs

/-- String comparison by code points (Python `<` on `str`). -/
def strLt (s t : String) : Bool := charListLt s.toList t.toList

/-- Python `s.startswith(p)`. -/
def pyStartsWith (s p : String) : Bool := p.toList.isPrefixOf s.toList

/-- Ordered insertion for `dir()`. -/
def insertByName (p : String × PyValue) : List (String × PyValue) → List (String × PyValue)
  | [] => [p]
  | q :: rest => if strLt q.1 p.1 then q :: insertByName p rest else p :: q :: rest

/-- `dir(self)` restricted to data attributes: the attribute names in
sorted order (class members — methods and the like — also appear in `dir`,
but they are callables whose type is outside `attr_list`, so the filter
below drops them; only the data attributes matter). -/
def sortByName : List (String × PyValue) → List (String × PyValue)
  | [] => []
  | p :: rest => insertByName p (sortByName rest)

/-- `type(getattr(self, attr_name)) in attr_list` with
`attr_list = (bool, int, float, complex, list, tuple, dict, set, str, bytes)`.
`None` (type `NoneType`) and any other object fail the test. -/
def attrTypeAllowed : PyValue → Bool
  | vBool _ => true
  | vInt _ => true
  | vFloat _ => true
  | vComplex _ => true
  | vList _ => true
  | vTuple _ => true
  | vDict _ => true
  | vSet _ => true
  | vStr _ => true
  | vBytes _ => true
  | vNone => false
  | vOther _ => false

/-- The name filter of `save_config`:
`not attr_name.startswith("_") or attr_name == '_comment'`. -/
def nameEligible (n : String) : Bool :=
  !pyStartsWith n "_" || n == "_comment"

/-- The `config_data` dict built by `save_config`: iterate `dir(self)` (sorted
attribute names) and keep the attributes passing the name filter whose type is
in `attr_list`. -/
def configData (store : Store) : Store :=
  (sortByName store).filter fun p => nameEligible p.1 && attrTypeAllowed p.2

/-- `save_config`: build `config_data`, `_preprocess` it, and `json.dump` it
to the file.  Returns the written document, or the exception `json.dump`
raises (for example on a `complex` attribute, which passes the `attr_list`
filter but is not serializable). -/
def saveConfig (store : Store) : Except PyErr Json :=
  dumpJson (preprocess (vDict (configData store)))

/-- `save_config` acting on the file system: on success the file now exists
with the written document; on an exception the old file content stands in
for whatever the interrupted write left behind. -/
def saveConfigFile (store : Store) (file : ConfigFile) : ConfigFile × Except PyErr Unit :=
  match saveConfig store with
  | .ok j => (some j, .ok ())
  | .error e => (file, .error e)

/-- The store of a freshly constructed `ConfigManager(foldr, file_name,
comment)` before `load_config` runs: `__init__` has set `_file_path` and
`_comment`. -/
def initStore (filePath comment : String) : Store :=
  [("_file_path", vStr filePath), ("_comment", vStr comment)]

/-! ## Value classes -/

/-- The JSON-native scalars: `bool`, `int`, `float`, `str`, `None`. -/
def isNativeScalar : PyValue → Bool
  | vNone => true
  | vBool _ => true
  | vInt _ => true
  | vFloat _ => true
  | vStr _ => true
  | _ => false

mutual

/-- A supported, Python-representable value: built only from the kinds the
codec handles (no `complex`, no foreign object anywhere), with every byte of
a byte string below 256 and every set duplicate-free with hashable
elements — the invariants real Python `bytes` and `set` values carry. -/
def wfV : PyValue → Bool
  | vNone => true
  | vBool _ => true
  | vInt _ => true
  | vFloat _ => true
  | vStr _ => true
  | vBytes bs => bs.all fun b => b < 256
  | vList xs => wfList xs
  | vTuple xs => wfList xs
  | vSet xs => pyHashableList xs && pyNodupB xs && wfList xs
  | vDict kvs => wfPairs kvs
  | vComplex _ => false
  | vOther _ => false

/-- All elements supported. -/
def wfList : List PyValue → Bool
  | [] => true
  | x :: xs => wfV x && wfList xs

/-- All values supported. -/
def wfPairs : List (String × PyValue) → Bool
  | [] => true
  | (_, v) :: kvs => wfV v && wfPairs kvs

end

/-- Is this `dct["__type__"]` value one of the three recognized tags?  (The
decoder's dispatch condition.) -/
def isTagValue (tv : PyValue) : Bool :=
  strEq tv "tuple" || strEq tv "set" || strEq tv "bytes"

mutual

/-- No mapping anywhere inside the value carries a `"__type__"` key bound to
one of the tag strings `"tuple"`, `"set"`, `"bytes"`.  Such a mapping would
collide with the codec's tagged-wrapper shape: its own encoding decodes back
to a tuple, set or bytes value instead of the mapping. -/
def noTag : PyValue → Bool
  | vDict kvs =>
    (match dctGet kvs "__type__" with
     | some tv => !isTagValue tv
     | none => true) && noTagPairs kvs
  | vList xs => noTagList xs
  | vTuple xs => noTagList xs
  | vSet xs => noTagList xs
  | _ => true

/-- All elements tag-collision-free. -/
def noTagList : List PyValue → Bool
  | [] => true
  | x :: xs => noTag x && noTagList xs

/-- All values tag-collision-free. -/
def noTagPairs : List (String × PyValue) → Bool
  | [] => true
  | (_, v) :: kvs => noTag v && noTagPairs kvs

end

/-! ## base64 round-trip -/

theorem b64Val_b64Char : ∀ n : Nat, n < 64 → b64Val (b64Char n) = some n := by decide

theorem b64Val_pad : b64Val '=' = none := by decide

theorem b64Char_ne_pad {n : Nat} (h : n < 64) : b64Char n ≠ '=' := by
  intro heq
  have h1 := b64Val_b64Char n h
  rw [heq, b64Val_pad] at h1
  exact Option.noConfusion h1

theorem b64Keep_b64Char {n : Nat} (h : n < 64) : b64Keep (b64Char n) = true := by
  simp [b64Keep, b64Val_b64Char n h]

theorem b64Keep_pad : b64Keep '=' = true := by decide

theorem filter_b64EncodeChunks (bs : List Nat) (h : ∀ b ∈ bs, b < 256) :
    (b64EncodeChunks bs).filter b64Keep = b64EncodeChunks bs := by
  induction bs using b64EncodeChunks.induct with
  | case1 => rfl
  | case2 a =>
    have ha : a < 256 := h a (by simp)
    simp [b64EncodeChunks, b64Keep_pad,
      b64Keep_b64Char (show a / 4 < 64 by omega),
      b64Keep_b64Char (show a % 4 * 16 < 64 by omega)]
  | case3 a b =>
    have ha : a < 256 := h a (by simp)
    have hb : b < 256 := h b (by simp)
    simp [b64EncodeChunks, b64Keep_pad,
      b64Keep_b64Char (show a / 4 < 64 by omega),
      b64Keep_b64Char (show a % 4 * 16 + b / 16 < 64 by omega),
      b64Keep_b64Char (show b % 16 * 4 < 64 by omega)]
  | case4 a b c rest ih =>
    have ha : a < 256 := h a (by simp)
    have hb : b < 256 := h b (by simp)
    have hc : c < 256 := h c (by simp)
    simp [b64EncodeChunks, List.filter,
      b64Keep_b64Char (show a / 4 < 64 by omega),
      b64Keep_b64Char (show a % 4 * 16 + b / 16 < 64 by omega),
      b64Keep_b64Char (show b % 16 * 4 + c / 64 < 64 by omega),
      b64Keep_b64Char (show c % 64 < 64 by omega),
      ih (fun x hx => h x (by simp [hx]))]

theorem b64DecodeQuads_encode (bs : List Nat) (h : ∀ b ∈ bs, b < 256) :
    b64DecodeQuads (b64EncodeChunks bs) = some bs := by
  induction bs using b64EncodeChunks.induct with
  | case1 => rfl
  | case2 a =>
    have ha : a < 256 := h a (by simp)
    have e1 := b64Val_b64Char (a / 4) (by omega)
    have e2 := b64Val_b64Char (a % 4 * 16) (by omega)
    simp [b64EncodeChunks, b64DecodeQuads, e1, e2]
    omega
  | case3 a b =>
    have ha : a < 256 := h a (by simp)
    have hb : b < 256 := h b (by simp)
    have e1 := b64Val_b64Char (a / 4) (by omega)
    have e2 := b64Val_b64Char (a % 4 * 16 + b / 16) (by omega)
    have e3 := b64Val_b64Char (b % 16 * 4) (by omega)
    have hne := b64Char_ne_pad (show b % 16 * 4 < 64 by omega)
    simp [b64EncodeChunks, b64DecodeQuads, e1, e2, e3, hne]
    constructor
    · omega
    · omega
  | case4 a b c rest ih =>
    have ha : a < 256 := h a (by simp)
    have hb : b < 256 := h b (by simp)
    have hc : c < 256 := h c (by simp)
    have e1 := b64Val_b64Char (a / 4) (by omega)
    have e2 := b64Val_b64Char (a % 4 * 16 + b / 16) (by omega)
    have e3 := b64Val_b64Char (b % 16 * 4 + c / 64) (by omega)
    have e4 := b64Val_b64Char (c % 64) (by omega)
    have hne3 := b64Char_ne_pad (show b % 16 * 4 + c / 64 < 64 by omega)
    have hne4 := b64Char_ne_pad (show c % 64 < 64 by omega)
    have hih := ih (fun x hx => h x (by simp [hx]))
    simp [b64EncodeChunks, b64DecodeQuads, e1, e2, e3, e4, hne3, hne4, hih]
    refine ⟨by omega, by omega, by omega⟩

/-- `base64.b64decode(base64.b64encode(bs)) == bs` for any real byte string. -/
theorem b64decode_b64encode (bs : List Nat) (h : ∀ b ∈ bs, b < 256) :
    b64decode (b64encode bs) = some bs := by
  show b64DecodeQuads (((String.mk (b64EncodeChunks bs)).toList).filter b64Keep) = some bs
  have htl : (String.mk (b64EncodeChunks bs)).toList = b64EncodeChunks bs := rfl
  rw [htl, filter_b64EncodeChunks bs h, b64DecodeQuads_encode bs h]

/-! ## The decoder is the identity away from tag collisions -/

theorem noTagList_mem {xs : List PyValue} {x : PyValue}
    (h : noTagList xs = true) (hx : x ∈ xs) : noTag x = true := by
  induction xs with
  | nil => simp at hx
  | cons y ys ih =>
    simp only [noTagList, Bool.and_eq_true] at h
    rcases List.mem_cons.mp hx with rfl | hmem
    · exact h.1
    · exact ih h.2 hmem

theorem noTagPairs_mem {kvs : List (String × PyValue)} {p : String × PyValue}
    (h : noTagPairs kvs = true) (hp : p ∈ kvs) : noTag p.2 = true := by
  induction kvs with
  | nil => simp at hp
  | cons q qs ih =>
    obtain ⟨k, v⟩ := q
    simp only [noTagPairs, Bool.and_eq_true] at h
    rcases List.mem_cons.mp hp with rfl | hmem
    · exact h.1
    · exact ih h.2 hmem

theorem wfList_mem {xs : List PyValue} {x : PyValue}
    (h : wfList xs = true) (hx : x ∈ xs) : wfV x = true := by
  induction xs with
  | nil => simp at hx
  | cons y ys ih =>
    simp only [wfList, Bool.and_eq_true] at h
    rcases List.mem_cons.mp hx with rfl | hmem
    · exact h.1
    · exact ih h.2 hmem

theorem wfPairs_mem {kvs : List (String × PyValue)} {p : String × PyValue}
    (h : wfPairs kvs = true) (hp : p ∈ kvs) : wfV p.2 = true := by
  induction kvs with
  | nil => simp at hp
  | cons q qs ih =>
    obtain ⟨k, v⟩ := q
    simp only [wfPairs, Bool.and_eq_true] at h
    rcases List.mem_cons.mp hp with rfl | hmem
    · exact h.1
    · exact ih h.2 hmem

theorem decodeItems_id {xs : List PyValue}
    (h : ∀ x ∈ xs, customDecoder x = .ok x) : decodeItems xs = .ok xs := by
  induction xs with
  | nil => simp [decodeItems]
  | cons x xs ih =>
    simp [decodeItems, h x (by simp), ih (fun y hy => h y (by simp [hy]))]

theorem decodePairs_id {kvs : List (String × PyValue)}
    (h : ∀ p ∈ kvs, customDecoder p.2 = .ok p.2) : decodePairs kvs = .ok kvs := by
  induction kvs with
  | nil => simp [decodePairs]
  | cons p kvs ih =>
    obtain ⟨k, v⟩ := p
    have h1 : customDecoder v = .ok v := h (k, v) (by simp)
    simp [decodePairs, h1, ih (fun q hq => h q (by simp [hq]))]

theorem customDecoder_id_aux :
    ∀ n : Nat, ∀ v : PyValue, sizeOf v ≤ n → noTag v = true → customDecoder v = .ok v := by
  intro n
  induction n with
  | zero =>
    intro v hv _
    exfalso
    cases v <;> simp at hv
  | succ n ih =>
    intro v hsize htag
    cases v with
    | vDict kvs =>
      have hpairs : decodePairs kvs = .ok kvs := by
        apply decodePairs_id
        intro p hp
        apply ih
        · have h1 : sizeOf p < sizeOf kvs := List.sizeOf_lt_of_mem hp
          have h2 : sizeOf p.2 < sizeOf p := by
            obtain ⟨k, w⟩ := p
            first
            | (simp; omega)
            | simp
            | omega
          have h3 : sizeOf (vDict kvs) = 1 + sizeOf kvs := by simp
          omega
        · have hps : noTagPairs kvs = true := by
            simp only [noTag, Bool.and_eq_true] at htag
            exact htag.2
          exact noTagPairs_mem hps hp
      cases hGet : dctGet kvs "__type__" with
      | none => simp [customDecoder, hGet, hpairs]
      | some tv =>
        have hTagF : isTagValue tv = false := by
          simp only [noTag, hGet, Bool.and_eq_true] at htag
          simpa using htag.1
        simp only [isTagValue, Bool.or_eq_false_iff] at hTagF
        simp [customDecoder, hGet, hTagF.1.1, hTagF.1.2, hTagF.2, hpairs]
    | vNone => simp [customDecoder]
    | vBool b => simp [customDecoder]
    | vInt m => simp [customDecoder]
    | vFloat f => simp [customDecoder]
    | vComplex p => simp [customDecoder]
    | vStr s => simp [customDecoder]
    | vBytes bs => simp [customDecoder]
    | vList xs => simp [customDecoder]
    | vTuple xs => simp [customDecoder]
    | vSet xs => simp [customDecoder]
    | vOther c => simp [customDecoder]

/-- `_custom_decoder` leaves any value without a tag collision unchanged. -/
theorem customDecoder_noTag (v : PyValue) (h : noTag v = true) : customDecoder v = .ok v :=
  customDecoder_id_aux (sizeOf v) v le_rfl h

/-! ## The round-trip law -/

theorem roundTrip_split {x : PyValue} (h : roundTrip x = .ok x) :
    ∃ j, dumpJson (preprocess x) = .ok j ∧ decodeJson j = .ok x := by
  unfold roundTrip at h
  cases hd : dumpJson (preprocess x) with
  | error e => rw [hd] at h; exact absurd h (by simp)
  | ok j => rw [hd] at h; exact ⟨j, rfl, h⟩

theorem dumpDecodeList {xs : List PyValue}
    (h : ∀ x ∈ xs, ∃ j, dumpJson (preprocess x) = .ok j ∧ decodeJson j = .ok x) :
    ∃ js, dumpList (preprocessList xs) = .ok js ∧ decodeJsonList js = .ok xs := by
  induction xs with
  | nil => exact ⟨[], rfl, rfl⟩
  | cons x xs ih =>
    obtain ⟨j, hd, hj⟩ := h x (by simp)
    obtain ⟨js, hds, hjs⟩ := ih (fun y hy => h y (by simp [hy]))
    refine ⟨j :: js, ?_, ?_⟩
    · simp [preprocessList, dumpList, hd, hds]
    · simp [decodeJsonList, hj, hjs]

theorem dumpDecodePairs {kvs : List (String × PyValue)}
    (h : ∀ p ∈ kvs, ∃ j, dumpJson (preprocess p.2) = .ok j ∧ decodeJson j = .ok p.2) :
    ∃ jkvs, dumpPairs (preprocessPairs kvs) = .ok jkvs ∧
      decodeJsonPairs jkvs = .ok kvs := by
  induction kvs with
  | nil => exact ⟨[], rfl, rfl⟩
  | cons p kvs ih =>
    obtain ⟨k, v⟩ := p
    obtain ⟨j, hd, hj⟩ := h (k, v) (by simp)
    obtain ⟨jkvs, hds, hjs⟩ := ih (fun q hq => h q (by simp [hq]))
    refine ⟨(k, j) :: jkvs, ?_, ?_⟩
    · simp only [Prod.snd] at hd
      simp [preprocessPairs, dumpPairs, hd, hds]
    · simp only [Prod.snd] at hj
      simp [decodeJsonPairs, hj, hjs]

theorem pyDedup_of_nodup {xs : List PyValue} (h : pyNodupB xs = true) : pyDedup xs = xs := by
  induction xs with
  | nil => rfl
  | cons x xs ih =>
    simp only [pyNodupB, Bool.and_eq_true, Bool.not_eq_true'] at h
    simp [pyDedup, h.1, ih h.2]

theorem all_lt_of_bytes_wf {bs : List Nat} (h : (bs.all fun b => b < 256) = true) :
    ∀ b ∈ bs, b < 256 := by
  intro b hb
  have := List.all_eq_true.mp h b hb
  simpa using this

theorem roundTrip_aux :
    ∀ n : Nat, ∀ v : PyValue, sizeOf v ≤ n → wfV v = true → noTag v = true →
      roundTrip v = .ok v := by
  intro n
  induction n with
  | zero =>
    intro v hv _ _
    exfalso
    cases v <;> simp at hv
  | succ n ih =>
    intro v hsize hwf htag
    cases v with
    | vNone => rfl
    | vBool b => rfl
    | vInt m => rfl
    | vFloat f => rfl
    | vStr s => rfl
    | vComplex p => simp [wfV] at hwf
    | vOther c => simp [wfV] at hwf
    | vBytes bs =>
      have h256 : ∀ b ∈ bs, b < 256 := all_lt_of_bytes_wf (by simpa [wfV] using hwf)
      have hb64 := b64decode_b64encode bs h256
      simp [roundTrip, preprocess, dumpJson, dumpPairs, decodeJson, decodeJsonPairs,
        customDecoder, dctGet, strEq, hb64]
    | vList xs =>
      have hsz : sizeOf (vList xs) = 1 + sizeOf xs := by simp
      have helt : ∀ x ∈ xs, ∃ j, dumpJson (preprocess x) = .ok j ∧ decodeJson j = .ok x := by
        intro x hx
        apply roundTrip_split
        apply ih
        · have := List.sizeOf_lt_of_mem hx
          omega
        · exact wfList_mem (by simpa [wfV] using hwf) hx
        · exact noTagList_mem (by simpa [noTag] using htag) hx
      obtain ⟨js, hds, hjs⟩ := dumpDecodeList helt
      simp [roundTrip, preprocess, dumpJson, hds, decodeJson, hjs]
    | vTuple xs =>
      have hsz : sizeOf (vTuple xs) = 1 + sizeOf xs := by simp
      have htagl : noTagList xs = true := by simpa [noTag] using htag
      have helt : ∀ x ∈ xs, ∃ j, dumpJson (preprocess x) = .ok j ∧ decodeJson j = .ok x := by
        intro x hx
        apply roundTrip_split
        apply ih
        · have := List.sizeOf_lt_of_mem hx
          omega
        · exact wfList_mem (by simpa [wfV] using hwf) hx
        · exact noTagList_mem htagl hx
      obtain ⟨js, hds, hjs⟩ := dumpDecodeList helt
      have hdec : decodeItems xs = .ok xs :=
        decodeItems_id fun x hx => customDecoder_noTag x (noTagList_mem htagl hx)
      simp [roundTrip, preprocess, dumpJson, dumpPairs, hds, decodeJson, decodeJsonPairs,
        hjs, customDecoder, dctGet, strEq, pyIter, hdec]
    | vSet xs =>
      have hsz : sizeOf (vSet xs) = 1 + sizeOf xs := by simp
      have hwf3 : (pyHashableList xs = true ∧ pyNodupB xs = true) ∧ wfList xs = true := by
        simpa [wfV] using hwf
      have htagl : noTagList xs = true := by simpa [noTag] using htag
      have helt : ∀ x ∈ xs, ∃ j, dumpJson (preprocess x) = .ok j ∧ decodeJson j = .ok x := by
        intro x hx
        apply roundTrip_split
        apply ih
        · have := List.sizeOf_lt_of_mem hx
          omega
        · exact wfList_mem hwf3.2 hx
        · exact noTagList_mem htagl hx
      obtain ⟨js, hds, hjs⟩ := dumpDecodeList helt
      have hdec : decodeItems xs = .ok xs :=
        decodeItems_id fun x hx => customDecoder_noTag x (noTagList_mem htagl hx)
      simp [roundTrip, preprocess, dumpJson, dumpPairs, hds, decodeJson, decodeJsonPairs,
        hjs, customDecoder, dctGet, strEq, pyIter, hdec, pySet, hwf3.1.1,
        pyDedup_of_nodup hwf3.1.2]
    | vDict kvs =>
      have hsz : sizeOf (vDict kvs) = 1 + sizeOf kvs := by simp
      have helt : ∀ p ∈ kvs, ∃ j, dumpJson (preprocess p.2) = .ok j ∧
          decodeJson j = .ok p.2 := by
        intro p hp
        apply roundTrip_split
        apply ih
        · have h1 := List.sizeOf_lt_of_mem hp
          have h2 : sizeOf p.2 < sizeOf p := by
            obtain ⟨k, w⟩ := p
            first
            | (simp; omega)
            | simp
            | omega
          omega
        · exact wfPairs_mem (by simpa [wfV] using hwf) hp
        · exact noTagPairs_mem (by
            simp only [noTag, Bool.and_eq_true] at htag
            exact htag.2) hp
      obtain ⟨jkvs, hds, hjs⟩ := dumpDecodePairs helt
      have hcd := customDecoder_noTag (vDict kvs) htag
      simp [roundTrip, preprocess, dumpJson, hds, decodeJson, hjs, hcd]

/-- Round-trip law for the codec pipeline: for every supported,
tag-collision-free value, `Decode(Encode(v))` succeeds and returns `v`. -/
theorem roundTrip_ok (v : PyValue) (hwf : wfV v = true) (htag : noTag v = true) :
    roundTrip v = .ok v :=
  roundTrip_aux (sizeOf v) v le_rfl hwf htag

/-! ## Store lemmas -/

theorem getattrS_setattrS (store : Store) (n : String) (v : PyValue) :
    getattrS (setattrS store n v) n = some v := by
  induction store with
  | nil => simp [setattrS, getattrS, dctGet]
  | cons p rest ih =>
    obtain ⟨k, w⟩ := p
    by_cases hk : k = n
    · subst hk
      simp [setattrS, getattrS, dctGet]
    · simp only [setattrS, if_neg hk]
      simpa [getattrS, dctGet, hk] using ih

theorem setattrS_setattrS (store : Store) (n : String) (v w : PyValue) :
    setattrS (setattrS store n v) n w = setattrS store n w := by
  induction store with
  | nil => simp [setattrS]
  | cons p rest ih =>
    obtain ⟨k, u⟩ := p
    by_cases hk : k = n
    · subst hk
      simp [setattrS]
    · simp [setattrS, hk, ih]

theorem mem_insertByName {q p : String × PyValue} {l : List (String × PyValue)} :
    q ∈ insertByName p l ↔ q = p ∨ q ∈ l := by
  induction l with
  | nil => simp [insertByName]
  | cons r rest ih =>
    simp only [insertByName]
    split <;> simp only [List.mem_cons, ih] <;> try tauto

theorem mem_sortByName {q : String × PyValue} {l : List (String × PyValue)} :
    q ∈ sortByName l ↔ q ∈ l := by
  induction l with
  | nil => simp [sortByName]
  | cons p rest ih =>
    simp [sortByName, mem_insertByName, ih]

theorem mem_configData {store : Store} {n : String} {v : PyValue} :
    (n, v) ∈ configData store ↔
      (n, v) ∈ store ∧ nameEligible n = true ∧ attrTypeAllowed v = true := by
  simp [configData, List.mem_filter, mem_sortByName, and_assoc]

/-! ## Claims -/

/-- C1 (counterexample): the round-trip law fails as universally stated.  The
mapping `{"__type__": "tuple", "items": []}` is a supported value (a mapping
of string keys to supported values), but its encoding decodes to the empty
tuple `()`, not back to the mapping: the decoder cannot tell a user mapping
that happens to carry the tag shape from the codec's own tagged wrapper. -/
theorem decode_encode_roundtrip_tag_collision :
    wfV (vDict [("__type__", vStr "tuple"), ("items", vList [])]) = true ∧
    roundTrip (vDict [("__type__", vStr "tuple"), ("items", vList [])]) = .ok (vTuple []) ∧
    vTuple [] ≠ vDict [("__type__", vStr "tuple"), ("items", vList [])] := by
  refine ⟨by decide, ?_, by simp⟩
  simp [roundTrip, preprocess, preprocessPairs, dumpJson, dumpPairs, dumpList,
    decodeJson, decodeJsonPairs, decodeJsonList, customDecoder, dctGet, strEq, pyIter,
    decodeItems]

/-- C1 (amended): for every supported value — boolean, integer, float, string,
byte string, list, tuple, set or string-keyed mapping, arbitrarily nested —
in which no mapping binds the key `"__type__"` to one of the tag strings
`"tuple"`, `"set"`, `"bytes"`, decoding the encoding yields the value back:
`Decode(Encode(v)) == v`.  (The model fixes a concrete iteration order for
sets, so content equality becomes structural equality.) -/
theorem decode_encode_roundtrip (v : PyValue) (hwf : wfV v = true)
    (htag : noTag v = true) : roundTrip v = .ok v :=
  roundTrip_ok v hwf htag

/-- C1 (witness): the round trip at a concrete nested value containing a set,
a tuple, a mapping-wrapped set, a byte string and a scalar. -/
theorem decode_encode_roundtrip_instance :
    wfV (vList [vSet [vInt 1, vInt 2], vTuple [vInt 3, vInt 4],
        vDict [("key", vSet [vInt 5, vInt 6])], vBytes [97, 98], vStr "s"]) = true ∧
    noTag (vList [vSet [vInt 1, vInt 2], vTuple [vInt 3, vInt 4],
        vDict [("key", vSet [vInt 5, vInt 6])], vBytes [97, 98], vStr "s"]) = true ∧
    roundTrip (vList [vSet [vInt 1, vInt 2], vTuple [vInt 3, vInt 4],
        vDict [("key", vSet [vInt 5, vInt 6])], vBytes [97, 98], vStr "s"]) =
      .ok (vList [vSet [vInt 1, vInt 2], vTuple [vInt 3, vInt 4],
        vDict [("key", vSet [vInt 5, vInt 6])], vBytes [97, 98], vStr "s"]) :=
  ⟨by decide, by decide,
    decode_encode_roundtrip _ (by decide) (by decide)⟩

/-- C2 (counterexample): decoding a tagged object with an unrecognized
`__type__` value does NOT raise — there is no `CorruptConfigError` anywhere in
the source, and `_custom_decoder` falls through to the dictionary
comprehension, returning the object as a plain dict. -/
theorem decode_unknown_tag_no_error :
    decodeJson (jObj [("__type__", jStr "frozenset"), ("items", jArr [jInt 1])]) =
      .ok (vDict [("__type__", vStr "frozenset"), ("items", vList [vInt 1])]) := by
  simp [decodeJson, decodeJsonPairs, decodeJsonList, customDecoder, dctGet, strEq,
    decodePairs]

/-- C2 (amended): a tagged object whose `__type__` marker is not one of
`"tuple"`, `"set"`, `"bytes"` decodes without error to the same object as a
plain mapping; a `"bytes"` tagged object whose `data` field is not valid
base64 raises `binascii.Error` (not a `CorruptConfigError`, which does not
exist), and the error propagates to the caller of `json.load`. -/
theorem decode_unknown_tag_and_bad_base64 :
    (∀ t : String, t ≠ "tuple" → t ≠ "set" → t ≠ "bytes" →
      decodeJson (jObj [("__type__", jStr t)]) = .ok (vDict [("__type__", vStr t)])) ∧
    (∀ s : String, b64decode s = none →
      decodeJson (jObj [("__type__", jStr "bytes"), ("data", jStr s)]) =
        .error .binasciiError) := by
  constructor
  · intro t h1 h2 h3
    simp [decodeJson, decodeJsonPairs, customDecoder, dctGet, strEq, decodePairs,
      h1, h2, h3]
  · intro s hs
    simp [decodeJson, decodeJsonPairs, customDecoder, dctGet, strEq, hs]

/-- C2 (witness): the amended behavior at the marker `"frozenset"` and the
non-base64 payload `"a"`. -/
theorem decode_unknown_tag_and_bad_base64_instance :
    decodeJson (jObj [("__type__", jStr "frozenset")]) =
      .ok (vDict [("__type__", vStr "frozenset")]) ∧
    decodeJson (jObj [("__type__", jStr "bytes"), ("data", jStr "a")]) =
      .error .binasciiError :=
  ⟨decode_unknown_tag_and_bad_base64.1 "frozenset" (by decide) (by decide) (by decide),
   decode_unknown_tag_and_bad_base64.2 "a" (by decide)⟩

/-- C3 (counterexample): `_preprocess` does not raise on a value outside the
recognized type set — no `UnsupportedTypeError` exists in the source.  The
final `return obj` passes the value through unchanged, and the failure that
eventually occurs is `json.dump` raising `TypeError` at serialization time. -/
theorem preprocess_unrecognized_no_exception :
    preprocess (vOther "PersistUI") = vOther "PersistUI" ∧
    dumpJson (vOther "PersistUI") = .error .typeError :=
  ⟨rfl, rfl⟩

/-- C3 (amended): `_preprocess` is total and returns every value outside the
recognized type set unchanged (it raises no `UnsupportedTypeError` — no such
exception exists); the unconverted value is not dropped, and when it reaches
`json.dump` the dump raises `TypeError`. -/
theorem preprocess_unrecognized_passthrough (cls : String) :
    preprocess (vOther cls) = vOther cls ∧
    dumpJson (vOther cls) = .error .typeError :=
  ⟨rfl, rfl⟩

/-- C4: `_preprocess` is the identity on the JSON-native scalars: booleans,
integers, floats, strings and `None` are returned unchanged. -/
theorem preprocess_native_scalar_id (v : PyValue) (h : isNativeScalar v = true) :
    preprocess v = v := by
  cases v <;> first
    | rfl
    | simp [isNativeScalar] at h

/-- C4 (witness): the identity at each scalar kind. -/
theorem preprocess_native_scalar_id_instance :
    isNativeScalar (vInt 42) = true ∧ preprocess (vInt 42) = vInt 42 ∧
    isNativeScalar (vStr "qwerty") = true ∧ preprocess (vStr "qwerty") = vStr "qwerty" ∧
    isNativeScalar (vBool true) = true ∧ preprocess (vBool true) = vBool true :=
  ⟨rfl, preprocess_native_scalar_id (vInt 42) rfl,
   rfl, preprocess_native_scalar_id (vStr "qwerty") rfl,
   rfl, preprocess_native_scalar_id (vBool true) rfl⟩

/-- C5: the concrete tagged shapes.  `Encode((4,5,6))` is exactly
`{"__type__":"tuple","items":[4,5,6]}` and decoding that object gives
`(4,5,6)`; `Encode(b"ab")` is exactly `{"__type__":"bytes","data":"YWI="}`
and decoding that object gives `b"ab"`. -/
theorem encode_decode_concrete_shapes :
    preprocess (vTuple [vInt 4, vInt 5, vInt 6]) =
      vDict [("__type__", vStr "tuple"), ("items", vList [vInt 4, vInt 5, vInt 6])] ∧
    decodeJson (jObj [("__type__", jStr "tuple"), ("items", jArr [jInt 4, jInt 5, jInt 6])]) =
      .ok (vTuple [vInt 4, vInt 5, vInt 6]) ∧
    preprocess (vBytes [97, 98]) =
      vDict [("__type__", vStr "bytes"), ("data", vStr "YWI=")] ∧
    decodeJson (jObj [("__type__", jStr "bytes"), ("data", jStr "YWI=")]) =
      .ok (vBytes [97, 98]) := by
  refine ⟨rfl, ?_, rfl, ?_⟩
  · simp [decodeJson, decodeJsonPairs, decodeJsonList, customDecoder, dctGet, strEq,
      pyIter, decodeItems]
  · simp [decodeJson, decodeJsonPairs, customDecoder, dctGet, strEq,
      show b64decode "YWI=" = some [97, 98] from by decide]

/-- C6: when no config file exists, `load_config` catches the
`FileNotFoundError`, raises nothing to the caller and leaves the store
exactly as it was (for a fresh instance: no persisted attributes, only the
`__init__`-set `_file_path` and `_comment`); the first `save_config` then
creates the file, containing just the comment. -/
theorem load_absent_file_recovery (store : Store) (p c : String) :
    loadConfig none store = (store, .ok ()) ∧
    saveConfigFile (initStore p c) none =
      (some (jObj [("_comment", jStr c)]), .ok ()) :=
  ⟨rfl, rfl⟩

/-- C7: whenever decoding a stored file fails, the error propagates out of
`load_config` (only `FileNotFoundError` is caught) and the store is returned
exactly as it was: `json.load` raises before the `setattr` loop starts, so no
attribute is set from the corrupt file. -/
theorem load_corrupt_file_atomic (j : Json) (store : Store) (e : PyErr)
    (h : decodeTop j = .error e) :
    loadConfig (some j) store = (store, .error e) := by
  simp [loadConfig, h]

/-- C7 (witness): loading a file whose bytes payload is malformed base64
leaves a populated store untouched and surfaces `binascii.Error`. -/
theorem load_corrupt_file_atomic_instance :
    loadConfig (some (jObj [("__type__", jStr "bytes"), ("data", jStr "a")]))
        [("_comment", vStr "x"), ("USER", vStr "TestUser")] =
      ([("_comment", vStr "x"), ("USER", vStr "TestUser")], .error .binasciiError) :=
  load_corrupt_file_atomic _ _ _ (by
    simp [decodeTop, decodeJson, decodeJsonPairs, customDecoder, dctGet, strEq,
      show b64decode "a" = none from by decide])

/-- C8: `save_config` writes exactly the attributes whose name passes
`not attr_name.startswith("_") or attr_name == '_comment'` and whose type is
in `attr_list` (bool, int, float, complex, list, tuple, dict, set, str,
bytes): membership in the written dict is equivalent to that filter, the
designated `_comment` key (a string) is always written despite its leading
underscore, and every other underscore-prefixed attribute never is.
(`QTConfigManager.save_config` applies the identical filter.) -/
theorem save_config_persistence_filter (store : Store) :
    (∀ n v, (n, v) ∈ configData store ↔
      ((n, v) ∈ store ∧ (!pyStartsWith n "_" || n == "_comment") = true ∧
        attrTypeAllowed v = true)) ∧
    (∀ c, ("_comment", vStr c) ∈ store → ("_comment", vStr c) ∈ configData store) ∧
    (∀ n v, pyStartsWith n "_" = true → n ≠ "_comment" → (n, v) ∉ configData store) := by
  refine ⟨fun n v => mem_configData, ?_, ?_⟩
  · intro c hc
    exact mem_configData.mpr ⟨hc, by decide, rfl⟩
  · intro n v h1 h2 hmem
    have h3 := (mem_configData.mp hmem).2.1
    simp [nameEligible, h1, h2] at h3

/-- C8 (witness): on a concrete store, `USER` (public, string) is written,
`_comment` is written despite its underscore, and `_notsaved` is not. -/
theorem save_config_persistence_filter_instance :
    ("_comment", vStr "title") ∈ configData
      [("_file_path", vStr "f"), ("_comment", vStr "title"),
       ("USER", vStr "TestUser"), ("_notsaved", vStr "no")] ∧
    ("_notsaved", vStr "no") ∉ configData
      [("_file_path", vStr "f"), ("_comment", vStr "title"),
       ("USER", vStr "TestUser"), ("_notsaved", vStr "no")] ∧
    ("USER", vStr "TestUser") ∈ configData
      [("_file_path", vStr "f"), ("_comment", vStr "title"),
       ("USER", vStr "TestUser"), ("_notsaved", vStr "no")] :=
  ⟨(save_config_persistence_filter _).2.1 "title" (by simp),
   (save_config_persistence_filter _).2.2 "_notsaved" (vStr "no") (by decide) (by decide),
   ((save_config_persistence_filter _).1 "USER" (vStr "TestUser")).mpr
     ⟨by simp, by decide, rfl⟩⟩

/-- C9: reading an attribute name that is not present on the store never
raises: `__getattr__` silently creates the attribute with value `None` and
returns `None`, and a subsequent read of the same name returns `None`
again (without further change to the store). -/
theorem getattr_auto_vivification (store : Store) (n : String)
    (h : getattrS store n = none) :
    getattrAuto store n = (vNone, setattrS store n vNone) ∧
    getattrS (setattrS store n vNone) n = some vNone ∧
    getattrAuto (setattrS store n vNone) n = (vNone, setattrS store n vNone) := by
  refine ⟨by simp [getattrAuto, h], getattrS_setattrS store n vNone, ?_⟩
  simp [getattrAuto, getattrS_setattrS store n vNone]

/-- C9 (witness): reading `test_attribute` on a fresh store. -/
theorem getattr_auto_vivification_instance :
    getattrAuto [] "test_attribute" = (vNone, [("test_attribute", vNone)]) ∧
    getattrS [("test_attribute", vNone)] "test_attribute" = some vNone ∧
    getattrAuto [("test_attribute", vNone)] "test_attribute" =
      (vNone, [("test_attribute", vNone)]) :=
  getattr_auto_vivification [] "test_attribute" rfl

/-- C10: `assign(n, d)` returns the current value of attribute `n` and leaves
the store unchanged when that value is not `None`; when the attribute is
`None` — or was never set, in which case reading it auto-vivifies it — it
stores `d` under `n` and returns `d`. -/
theorem assign_semantics (store : Store) (n : String) (d : PyValue) :
    (∀ v, getattrS store n = some v → v ≠ vNone → assign store n d = (v, store)) ∧
    ((getattrS store n = none ∨ getattrS store n = some vNone) →
      assign store n d = (d, setattrS store n d) ∧
      getattrS (setattrS store n d) n = some d) := by
  constructor
  · intro v hv hne
    cases v with
    | vNone => exact absurd rfl hne
    | vBool b => simp [assign, getattrAuto, hv]
    | vInt m => simp [assign, getattrAuto, hv]
    | vFloat f => simp [assign, getattrAuto, hv]
    | vComplex p => simp [assign, getattrAuto, hv]
    | vStr s => simp [assign, getattrAuto, hv]
    | vBytes bs => simp [assign, getattrAuto, hv]
    | vList xs => simp [assign, getattrAuto, hv]
    | vTuple xs => simp [assign, getattrAuto, hv]
    | vSet xs => simp [assign, getattrAuto, hv]
    | vDict kvs => simp [assign, getattrAuto, hv]
    | vOther c => simp [assign, getattrAuto, hv]
  · intro hcase
    rcases hcase with h | h
    · refine ⟨?_, getattrS_setattrS store n d⟩
      simp [assign, getattrAuto, h, setattrS_setattrS]
    · refine ⟨?_, getattrS_setattrS store n d⟩
      simp [assign, getattrAuto, h]

/-- C10 (witness): assigning over a non-`None` value returns it unchanged;
assigning to an unset name stores and returns the default. -/
theorem assign_semantics_instance :
    assign [("a", vInt 1)] "a" (vInt 9) = (vInt 1, [("a", vInt 1)]) ∧
    assign [("a", vInt 1)] "test2" (vStr "Test2 value") =
      (vStr "Test2 value", [("a", vInt 1), ("test2", vStr "Test2 value")]) :=
  ⟨(assign_semantics [("a", vInt 1)] "a" (vInt 9)).1 (vInt 1) rfl (by simp),
   (assign_semantics [("a", vInt 1)] "test2" (vStr "Test2 value")).2 (Or.inl rfl) |>.1⟩

end ConfigManager
